import Mathlib

/-!
Shallow embedding of the walk WindowGroup / windowGroupManager subsystem
(windowgroup source file) and of the thread-lock helpers.

Modelling conventions:
* Go `panic` is modelled as `Except.error` carrying a `Panic` tag naming the
  panic site; a panic aborts the operation, so no state after a panic is
  observable.
* `dispose` emits an ordered trace of `Event`s recording the order of its
  side effects (tooltip disposal, setting the removed flag, invoking the
  manager completion callback).  `Add`/`ignore` return the trace of the
  disposal they may trigger (empty when no disposal fires).
* Opaque foreign types are modelled as `Nat` identifiers: tooltip handles,
  forms, queued callbacks, `LayoutResult` values and `stopwatch` tokens.
* A queued callback may itself call `Synchronize`; its behaviour is given by
  an environment `env : Nat → List Nat` listing, in order, the callbacks it
  enqueues when it runs.  `RunSynchronized` returns the ordered trace of
  `Action`s it performed (layout application, callback invocations).
* The Go map `map[uint32]*WindowGroup` is modelled as an association list;
  a nil map and an empty map behave identically for lookup and delete, so
  the nil case is not distinguished.  Pointer aliasing between the map entry
  and the group returned by `CreateGroup` is modelled by writing the updated
  group back into the registry (`setGroup`).
-/

namespace Walk

/-- Panic sites of the embedded code, one per Go `panic` call. -/
inductive Panic where
  /-- add() called on a WindowGroup that has been removed from its manager -/
  | addOnRemoved
  /-- negative WindowGroup refs counter -/
  | negRefs
  /-- ignore() called on a WindowGroup that has been removed from its manager -/
  | ignoreOnRemoved
  /-- negative WindowGroup ignored counter -/
  | negIgnored
  /-- call me only in threaded mode (thread helpers) -/
  | notThreaded
deriving DecidableEq, Repr

/-- Ordered side effects of `WindowGroup.dispose`. -/
inductive Event where
  /-- the group's tooltip control was disposed (carrying its handle) -/
  | disposedToolTip (handle : Nat)
  /-- the `removed` flag was set -/
  | markedRemoved
  /-- the manager completion callback was invoked with the thread id -/
  | completion (threadID : Nat)
deriving DecidableEq, Repr

/-- WindowGroup holds data common to windows that share a thread
(field for field from the Go struct; the `completion` function field is
represented by the `Event.completion` trace event, since it is always the
manager's `removeGroup`; the sync mutex has no sequential content). -/
structure WindowGroup where
  /-- Tracks the number of windows that rely on this group -/
  refs : Int
  /-- Tracks the number of refs created by the group itself -/
  ignored : Int
  threadID : Nat
  /-- Has this group been removed from its manager? -/
  removed : Bool
  toolTip : Option Nat
  activeForm : Option Nat
  /-- Functions queued to run on the thread of the group -/
  syncFuncs : List Nat
  /-- Layout computations queued for application on the thread of the group -/
  layoutResults : List Nat
  /-- Timing information for the layout computations -/
  layoutStopwatch : Option Nat
deriving DecidableEq, Repr

/-- newWindowGroup returns a new window group for the given thread ID. -/
def newWindowGroup (threadID : Nat) : WindowGroup :=
  { refs := 0, ignored := 0, threadID := threadID, removed := false,
    toolTip := none, activeForm := none, syncFuncs := [],
    layoutResults := [], layoutStopwatch := none }

/-- ThreadID identifies the thread that the group is affiliated with. -/
def WindowGroup.ThreadID (g : WindowGroup) : Nat := g.threadID

/-- Refs returns the current number of references to the group. -/
def WindowGroup.Refs (g : WindowGroup) : Int := g.refs

/-- dispose releases any resources consumed by the group: it disposes the
tooltip (if any) and clears the field, then sets `removed`, then invokes the
completion callback with the thread id.  The returned trace records that
order. -/
def WindowGroup.dispose (g : WindowGroup) : WindowGroup × List Event :=
  match g.toolTip with
  | some h =>
      ({ g with toolTip := none, removed := true },
        [Event.disposedToolTip h, Event.markedRemoved, Event.completion g.threadID])
  | none =>
      ({ g with removed := true },
        [Event.markedRemoved, Event.completion g.threadID])

/-- Add changes the reference counter of the group by delta, which may be
negative.  Panics when the group is removed or the counter becomes negative;
disposes the group when `refs - ignored` becomes zero. -/
def WindowGroup.Add (g : WindowGroup) (delta : Int) :
    Except Panic (WindowGroup × List Event) :=
  if g.removed then Except.error Panic.addOnRemoved
  else
    let g' : WindowGroup := { g with refs := g.refs + delta }
    if g'.refs < 0 then Except.error Panic.negRefs
    else if g'.refs - g'.ignored = 0 then Except.ok g'.dispose
    else Except.ok (g', [])

/-- Done decrements the reference counter of the group by one. -/
def WindowGroup.Done (g : WindowGroup) : Except Panic (WindowGroup × List Event) :=
  g.Add (-1)

/-- ignore changes the number of references that the group will ignore.
Same removed / negative-counter panics and zero-liveness disposal as `Add`,
on the `ignored` counter. -/
def WindowGroup.ignore (g : WindowGroup) (delta : Int) :
    Except Panic (WindowGroup × List Event) :=
  if g.removed then Except.error Panic.ignoreOnRemoved
  else
    let g' : WindowGroup := { g with ignored := g.ignored + delta }
    if g'.ignored < 0 then Except.error Panic.negIgnored
    else if g'.refs - g'.ignored = 0 then Except.ok g'.dispose
    else Except.ok (g', [])

/-- Synchronize adds f to the function queue of the group. -/
def WindowGroup.Synchronize (g : WindowGroup) (f : Nat) : WindowGroup :=
  { g with syncFuncs := g.syncFuncs ++ [f] }

/-- SynchronizeLayout replaces the queued layout computations and their
stopwatch by the given ones. -/
def WindowGroup.SynchronizeLayout (g : WindowGroup) (results : List Nat)
    (sw : Option Nat) : WindowGroup :=
  { g with layoutResults := results, layoutStopwatch := sw }

/-- ToolTip returns the tool tip control for the group, if one exists. -/
def WindowGroup.ToolTip (g : WindowGroup) : Option Nat := g.toolTip

/-- ActiveForm returns the currently active form for the group. -/
def WindowGroup.ActiveForm (g : WindowGroup) : Option Nat := g.activeForm

/-- SetActiveForm updates the currently active form for the group. -/
def WindowGroup.SetActiveForm (g : WindowGroup) (form : Option Nat) : WindowGroup :=
  { g with activeForm := form }

/-- Steps performed by `RunSynchronized`, in order. -/
inductive Action where
  /-- applyLayoutResults was called on the given batch and stopwatch -/
  | applyLayout (results : List Nat) (sw : Option Nat)
  /-- the queued callback f was invoked -/
  | run (f : Nat)
deriving DecidableEq, Repr

/-- Running one queued callback: it calls `Synchronize` for each id its
behaviour `env` lists, in order. -/
def runCallback (env : Nat → List Nat) (g : WindowGroup) (f : Nat) : WindowGroup :=
  (env f).foldl WindowGroup.Synchronize g

/-- RunSynchronized runs all of the queued function calls and applies any
queued layout changes.  It first swaps out (clears) the queued callbacks and
the layout batch, then applies the layout batch if non-empty, then invokes
the swapped-out callbacks in insertion order.  Returns the updated group and
the ordered trace of what it did. -/
def WindowGroup.RunSynchronized (g : WindowGroup) (env : Nat → List Nat) :
    WindowGroup × List Action :=
  let funcs := g.syncFuncs
  let results := g.layoutResults
  let sw := g.layoutStopwatch
  let g1 : WindowGroup :=
    { g with syncFuncs := [], layoutResults := [], layoutStopwatch := none }
  let layoutActs := if results.length > 0 then [Action.applyLayout results sw] else []
  let g2 := funcs.foldl (runCallback env) g1
  (g2, layoutActs ++ funcs.map Action.run)

/-- Modelled from the spec: `NewToolTip` (code of this repository that is not
under src/) constructs a tooltip control; as part of the InitWindow process
of the new tooltip, one reference is implicitly added to the group of the
calling thread.  The oracle argument `handle` supplies the outcome of the
foreign constructor: `none` models a construction error, `some h` a new
control with handle `h`.  The implicit self-reference is the refs increment. -/
def NewToolTip (g : WindowGroup) (handle : Option Nat) :
    Option (WindowGroup × Nat) :=
  match handle with
  | none => none
  | some h => some ({ g with refs := g.refs + 1 }, h)

/-- CreateToolTip returns a tool tip control for the group, creating it on
first call and caching it; after construction it calls `ignore 1` to
compensate for the reference the tooltip added to its own group.  Returns
the updated group, the result (`none` models the error return), and whether
a new control was constructed on this call. -/
def WindowGroup.CreateToolTip (g : WindowGroup) (handle : Option Nat) :
    Except Panic (WindowGroup × Option Nat × Bool) :=
  match g.toolTip with
  | some tt => Except.ok (g, some tt, false)
  | none =>
      match NewToolTip g handle with
      | none => Except.ok (g, none, false)
      | some (g1, tt) =>
          let g2 : WindowGroup := { g1 with toolTip := some tt }
          match g2.ignore 1 with
          | Except.error p => Except.error p
          | Except.ok (g3, _) => Except.ok (g3, some tt, true)

/-- windowGroupManager manages window groups for each thread with one or
more windows (the Go map modelled as an association list). -/
structure windowGroupManager where
  groups : List (Nat × WindowGroup)
deriving DecidableEq, Repr

/-- Group returns a window group for the given thread ID, if one exists. -/
def windowGroupManager.Group (m : windowGroupManager) (threadID : Nat) :
    Option WindowGroup :=
  m.groups.lookup threadID

/-- removeGroup is called by window groups to remove themselves from
the manager. -/
def windowGroupManager.removeGroup (m : windowGroupManager) (threadID : Nat) :
    windowGroupManager :=
  { groups := m.groups.filter (fun p => ! (p.1 == threadID)) }

/-- Pointer semantics of the registry: the map stores a pointer to the group,
so a mutation of the group through `Add` is visible in the registry entry. -/
def windowGroupManager.setGroup (m : windowGroupManager) (threadID : Nat)
    (g : WindowGroup) : windowGroupManager :=
  { groups := m.groups.map (fun p => if p.1 = threadID then (threadID, g) else p) }

/-- The completion callback installed by `newWindowGroup` is the manager's
`removeGroup`; applying a disposal trace to the manager performs it. -/
def windowGroupManager.applyEvent (m : windowGroupManager) (e : Event) :
    windowGroupManager :=
  match e with
  | Event.completion tid => m.removeGroup tid
  | _ => m

/-- CreateGroup returns a window group for the given thread ID, creating and
registering one if none exists; either way the group has its counter
incremented by this call.  (The read-lock fast path and the re-checking
write-lock slow path of the Go code collapse to a single lookup in this
sequential model.) -/
def windowGroupManager.CreateGroup (m : windowGroupManager) (threadID : Nat) :
    Except Panic (windowGroupManager × WindowGroup) :=
  match m.Group threadID with
  | some group =>
      match group.Add 1 with
      | Except.error p => Except.error p
      | Except.ok (g', evs) =>
          Except.ok (evs.foldl windowGroupManager.applyEvent
            (m.setGroup threadID g'), g')
  | none =>
      match (newWindowGroup threadID).Add 1 with
      | Except.error p => Except.error p
      | Except.ok (g', evs) =>
          Except.ok ({ groups :=
            (evs.foldl windowGroupManager.applyEvent m).groups
              ++ [(threadID, g')] }, g')

/-- runAdds threads a list of `Add` deltas through a group, accumulating the
disposal traces; the run aborts at the first panic. -/
def runAdds (g : WindowGroup) : List Int → Except Panic (WindowGroup × List Event)
  | [] => Except.ok (g, [])
  | d :: ds =>
      match g.Add d with
      | Except.error p => Except.error p
      | Except.ok (g', evs) =>
          match runAdds g' ds with
          | Except.error p => Except.error p
          | Except.ok (g'', evs') => Except.ok (g'', evs ++ evs')

deriving instance DecidableEq for Except

/-- Does an operation end in a panic? -/
def fatal {α : Type} (r : Except Panic α) : Bool :=
  match r with
  | Except.error _ => true
  | Except.ok _ => false

/-- Primitive effects of the thread-lock helpers. -/
inductive ThreadAction where
  /-- runtime.LockOSThread: pin the goroutine to its OS thread -/
  | lockOSThread
  /-- runtime.UnlockOSThread -/
  | unlockOSThread
  /-- MsgLoopMutex.Lock -/
  | msgLoopLock
  /-- MsgLoopMutex.Unlock -/
  | msgLoopUnlock
deriving DecidableEq, Repr

/-- LockThread locks the message-loop mutex, only in threaded mode. -/
def LockThread (threaded : Bool) : List ThreadAction :=
  if threaded then [ThreadAction.msgLoopLock] else []

/-- UnlockThread unlocks the message-loop mutex, only in threaded mode. -/
def UnlockThread (threaded : Bool) : List ThreadAction :=
  if threaded then [ThreadAction.msgLoopUnlock] else []

/-- EnterThread panics when not in threaded mode; otherwise pins the OS
thread and calls LockThread. -/
def EnterThread (threaded : Bool) : Except Panic (List ThreadAction) :=
  if !threaded then Except.error Panic.notThreaded
  else Except.ok ([ThreadAction.lockOSThread] ++ LockThread threaded)

/-- LeaveThread panics when not in threaded mode; otherwise calls
UnlockThread and unpins the OS thread. -/
def LeaveThread (threaded : Bool) : Except Panic (List ThreadAction) :=
  if !threaded then Except.error Panic.notThreaded
  else Except.ok (UnlockThread threaded ++ [ThreadAction.unlockOSThread])

lemma foldl_Synchronize (g : WindowGroup) (l : List Nat) :
    l.foldl WindowGroup.Synchronize g = { g with syncFuncs := g.syncFuncs ++ l } := by
  induction l generalizing g with
  | nil => simp
  | cons a t ih =>
      simp only [List.foldl_cons, ih, WindowGroup.Synchronize, List.append_assoc,
        List.cons_append, List.nil_append]

lemma runCallback_eq (env : Nat → List Nat) (g : WindowGroup) (f : Nat) :
    runCallback env g f = { g with syncFuncs := g.syncFuncs ++ env f } := by
  simp [runCallback, foldl_Synchronize]

lemma foldl_runCallback (env : Nat → List Nat) (l : List Nat) :
    ∀ g : WindowGroup, l.foldl (runCallback env) g =
      { g with syncFuncs := g.syncFuncs ++ l.flatMap env } := by
  induction l with
  | nil => intro g; simp
  | cons a t ih =>
      intro g
      simp only [List.foldl_cons, runCallback_eq, ih, List.flatMap_cons,
        List.append_assoc]

/-- C4: two SynchronizeLayout submissions with no intervening drain are
last-writer-wins: the drain applies only the second batch with its stopwatch
token, and an empty pending batch is not applied at all. -/
theorem c4_layout_last_writer_wins (g : WindowGroup) (env : Nat → List Nat)
    (r1 r2 : List Nat) (s1 s2 : Option Nat) :
    (((g.SynchronizeLayout r1 s1).SynchronizeLayout r2 s2).RunSynchronized env).2 =
      (if r2.length > 0 then [Action.applyLayout r2 s2] else [])
        ++ g.syncFuncs.map Action.run := by
  simp [WindowGroup.SynchronizeLayout, WindowGroup.RunSynchronized]

/-- C6 (counterexample): an `ignore` call whose delta makes the ignored
counter negative is fatal even though the group is not removed and no Add
call made refs negative, so the two conditions listed by the claim are not
the only fatal conditions. -/
theorem c6_only_fatal_counterexample :
    fatal ((newWindowGroup 0).ignore (-1)) = true ∧
      (newWindowGroup 0).removed = false := by
  constructor <;> rfl

/-- C6 (amended): Add is fatal exactly when the group is removed or the
resulting refs would be negative; ignore is fatal exactly when the group is
removed or the resulting ignored counter would be negative; there are no
other fatal conditions. -/
theorem c6_fatal_conditions (g : WindowGroup) (delta : Int) :
    (fatal (g.Add delta) = true ↔ (g.removed = true ∨ g.refs + delta < 0)) ∧
    (fatal (g.ignore delta) = true ↔ (g.removed = true ∨ g.ignored + delta < 0)) := by
  constructor
  · cases hr : g.removed with
    | true => simp [WindowGroup.Add, hr, fatal]
    | false =>
        simp only [WindowGroup.Add, hr, Bool.false_eq_true, if_false, false_or]
        by_cases h1 : g.refs + delta < 0
        · simp [h1, fatal]
        · by_cases h2 : g.refs + delta - g.ignored = 0 <;>
            simp [h1, h2, fatal, WindowGroup.dispose] <;>
            cases g.toolTip <;> simp [fatal]
  · cases hr : g.removed with
    | true => simp [WindowGroup.ignore, hr, fatal]
    | false =>
        simp only [WindowGroup.ignore, hr, Bool.false_eq_true, if_false, false_or]
        by_cases h1 : g.ignored + delta < 0
        · simp [h1, fatal]
        · by_cases h2 : g.refs - (g.ignored + delta) = 0 <;>
            simp [h1, h2, fatal, WindowGroup.dispose] <;>
            cases g.toolTip <;> simp [fatal]

/-- C8 (counterexample): with the multi-thread flag false, entering the
message-loop context is not a no-op that completes normally: EnterThread
panics. -/
theorem c8_enter_counterexample :
    EnterThread false = Except.error Panic.notThreaded := rfl

/-- C8 (amended): with the multi-thread flag false, LockThread and
UnlockThread are no-ops (no lock acquired, no fatal stop), but EnterThread
and LeaveThread trigger a fatal stop instead of completing normally. -/
theorem c8_singlethread_behaviour :
    LockThread false = [] ∧ UnlockThread false = [] ∧
    EnterThread false = Except.error Panic.notThreaded ∧
    LeaveThread false = Except.error Panic.notThreaded := by
  refine ⟨rfl, rfl, rfl, rfl⟩

/-- C10: dispose disposes the tooltip and clears the field before setting
the removed flag, and invokes the manager removal callback with the thread
id of the group last; afterwards ToolTip() returns none; applying the
completion event performs the manager's removeGroup. -/
theorem c10_dispose_order (g : WindowGroup) :
    (g.dispose).1.toolTip = none ∧ (g.dispose).1.removed = true ∧
    WindowGroup.ToolTip (g.dispose).1 = none ∧
    (g.dispose).2 =
      (match g.toolTip with
        | some h => [Event.disposedToolTip h]
        | none => []) ++ [Event.markedRemoved, Event.completion g.threadID] ∧
    (∀ m : windowGroupManager,
      m.applyEvent (Event.completion g.threadID) = m.removeGroup g.threadID) := by
  cases h : g.toolTip <;>
    simp [WindowGroup.dispose, WindowGroup.ToolTip, windowGroupManager.applyEvent, h]

/-- C2: after Synchronize f1 then Synchronize f2 on a group with empty
queues, one RunSynchronized invokes f1 then f2 (each exactly once when they
differ), and the pending queue afterwards holds exactly what the callbacks
re-enqueued, hence is empty for callbacks that enqueue nothing. -/
theorem c2_synchronize_fifo (g : WindowGroup) (env : Nat → List Nat) (f1 f2 : Nat)
    (hq : g.syncFuncs = []) (hl : g.layoutResults = []) :
    (((g.Synchronize f1).Synchronize f2).RunSynchronized env).2 =
        [Action.run f1, Action.run f2] ∧
    (((g.Synchronize f1).Synchronize f2).RunSynchronized env).1.syncFuncs =
        env f1 ++ env f2 ∧
    (env f1 = [] → env f2 = [] →
      (((g.Synchronize f1).Synchronize f2).RunSynchronized env).1.syncFuncs = []) ∧
    (f1 ≠ f2 →
      (((g.Synchronize f1).Synchronize f2).RunSynchronized env).2.count
          (Action.run f1) = 1 ∧
      (((g.Synchronize f1).Synchronize f2).RunSynchronized env).2.count
          (Action.run f2) = 1) := by
  refine ⟨?_, ?_, ?_, ?_⟩
  · simp [WindowGroup.Synchronize, WindowGroup.RunSynchronized, hq, hl]
  · simp [WindowGroup.Synchronize, WindowGroup.RunSynchronized, hq, hl,
      runCallback_eq]
  · intro h1 h2
    simp [WindowGroup.Synchronize, WindowGroup.RunSynchronized, hq, hl,
      runCallback_eq, h1, h2]
  · intro hne
    constructor <;>
      simp [WindowGroup.Synchronize, WindowGroup.RunSynchronized, hq, hl,
        List.count_cons, List.count_nil, hne, Ne.symm hne]

/-- C3: a callback that calls Synchronize(f3) during a drain does not get f3
executed in that drain; f3 sits in the queue afterwards and is executed by
the next RunSynchronized. -/
theorem c3_reentrant_next_drain (g : WindowGroup) (env : Nat → List Nat)
    (f f3 : Nat) (hq : g.syncFuncs = []) (hl : g.layoutResults = [])
    (henv : env f = [f3]) (henv3 : env f3 = []) (hne : f3 ≠ f) :
    ((g.Synchronize f).RunSynchronized env).2 = [Action.run f] ∧
    Action.run f3 ∉ ((g.Synchronize f).RunSynchronized env).2 ∧
    ((g.Synchronize f).RunSynchronized env).1.syncFuncs = [f3] ∧
    (((g.Synchronize f).RunSynchronized env).1.RunSynchronized env).2 =
      [Action.run f3] ∧
    (((g.Synchronize f).RunSynchronized env).1.RunSynchronized env).1.syncFuncs
      = [] := by
  refine ⟨?_, ?_, ?_, ?_, ?_⟩ <;>
    simp [WindowGroup.Synchronize, WindowGroup.RunSynchronized, hq, hl,
      runCallback_eq, henv, henv3, hne]

lemma Add_removed_error (g : WindowGroup) (d : Int) (hrem : g.removed = true) :
    g.Add d = Except.error Panic.addOnRemoved := by
  simp [WindowGroup.Add, hrem]

lemma ignore_removed_error (g : WindowGroup) (d : Int) (hrem : g.removed = true) :
    g.ignore d = Except.error Panic.ignoreOnRemoved := by
  simp [WindowGroup.ignore, hrem]

lemma Add_ok_noDispose (g : WindowGroup) (d : Int) (hrem : g.removed = false)
    (h1 : 0 ≤ g.refs + d) (h2 : g.refs + d - g.ignored ≠ 0) :
    g.Add d = Except.ok ({ g with refs := g.refs + d }, []) := by
  unfold WindowGroup.Add
  rw [hrem]
  have hI : ¬ (g.refs + d < 0) := by omega
  simp [hI, h2]

lemma ignore_ok_noDispose (g : WindowGroup) (d : Int) (hrem : g.removed = false)
    (h1 : 0 ≤ g.ignored + d) (h2 : g.refs - (g.ignored + d) ≠ 0) :
    g.ignore d = Except.ok ({ g with ignored := g.ignored + d }, []) := by
  unfold WindowGroup.ignore
  rw [hrem]
  have hI : ¬ (g.ignored + d < 0) := by omega
  simp [hI, h2]

lemma Add_ok_spec (g : WindowGroup) (d : Int) (g' : WindowGroup) (evs : List Event)
    (h : g.Add d = Except.ok (g', evs)) :
    g.removed = false ∧ 0 ≤ g.refs + d ∧ g'.refs = g.refs + d ∧
    g'.ignored = g.ignored ∧ g'.threadID = g.threadID ∧
    ((g.refs + d - g.ignored = 0 ∧ g'.removed = true ∧ g'.toolTip = none ∧
        evs = (match g.toolTip with
          | some h0 => [Event.disposedToolTip h0]
          | none => []) ++ [Event.markedRemoved, Event.completion g.threadID]) ∨
     (g.refs + d - g.ignored ≠ 0 ∧ g'.removed = false ∧ g'.toolTip = g.toolTip ∧
        evs = [])) := by
  cases hr : g.removed with
  | true => simp [WindowGroup.Add, hr] at h
  | false =>
      unfold WindowGroup.Add at h
      rw [hr] at h
      simp only [Bool.false_eq_true, if_false] at h
      by_cases h1 : g.refs + d < 0
      · simp [h1] at h
      · by_cases h2 : g.refs + d - g.ignored = 0
        · simp only [h1, h2] at h
          cases ht : g.toolTip with
          | none =>
              simp [WindowGroup.dispose, ht, h1, h2] at h
              obtain ⟨hg, he⟩ := h
              subst hg
              refine ⟨rfl, by omega, rfl, rfl, rfl, Or.inl ?_⟩
              simp [← he, ht, h2]
          | some h0 =>
              simp [WindowGroup.dispose, ht, h1, h2] at h
              obtain ⟨hg, he⟩ := h
              subst hg
              refine ⟨rfl, by omega, rfl, rfl, rfl, Or.inl ?_⟩
              simp [← he, ht, h2]
        · simp [h1, h2] at h
          obtain ⟨hg, he⟩ := h
          subst hg
          exact ⟨rfl, by omega, rfl, rfl, rfl, Or.inr ⟨h2, rfl, rfl, he⟩⟩

lemma ignore_ok_spec (g : WindowGroup) (d : Int) (g' : WindowGroup)
    (evs : List Event) (h : g.ignore d = Except.ok (g', evs)) :
    g.removed = false ∧ 0 ≤ g.ignored + d ∧ g'.ignored = g.ignored + d ∧
    g'.refs = g.refs ∧ g'.threadID = g.threadID ∧
    ((g.refs - (g.ignored + d) = 0 ∧ g'.removed = true ∧ g'.toolTip = none ∧
        evs = (match g.toolTip with
          | some h0 => [Event.disposedToolTip h0]
          | none => []) ++ [Event.markedRemoved, Event.completion g.threadID]) ∨
     (g.refs - (g.ignored + d) ≠ 0 ∧ g'.removed = false ∧ g'.toolTip = g.toolTip ∧
        evs = [])) := by
  cases hr : g.removed with
  | true => simp [WindowGroup.ignore, hr] at h
  | false =>
      unfold WindowGroup.ignore at h
      rw [hr] at h
      simp only [Bool.false_eq_true, if_false] at h
      by_cases h1 : g.ignored + d < 0
      · simp [h1] at h
      · by_cases h2 : g.refs - (g.ignored + d) = 0
        · simp only [h1, h2] at h
          cases ht : g.toolTip with
          | none =>
              simp [WindowGroup.dispose, ht, h1, h2] at h
              obtain ⟨hg, he⟩ := h
              subst hg
              refine ⟨rfl, by omega, rfl, rfl, rfl, Or.inl ?_⟩
              simp [← he, ht, h2]
          | some h0 =>
              simp [WindowGroup.dispose, ht, h1, h2] at h
              obtain ⟨hg, he⟩ := h
              subst hg
              refine ⟨rfl, by omega, rfl, rfl, rfl, Or.inl ?_⟩
              simp [← he, ht, h2]
        · simp [h1, h2] at h
          obtain ⟨hg, he⟩ := h
          subst hg
          exact ⟨rfl, by omega, rfl, rfl, rfl, Or.inr ⟨h2, rfl, rfl, he⟩⟩

/-- C9: a non-panicking Add or ignore call triggers disposal exactly when
the updated counters satisfy refs - ignored = 0; in particular a call that
jumps liveness from positive to negative (refs staying non-negative)
neither panics nor disposes, leaving a non-removed group with negative
liveness (witnessed by refs=3, ignored=2, Add(-2)). -/
theorem c9_dispose_iff_zero_liveness :
    (∀ (g : WindowGroup) (d : Int) (g' : WindowGroup) (evs : List Event),
        g.Add d = Except.ok (g', evs) →
          ((g'.removed = true ↔ g'.refs - g'.ignored = 0) ∧
           (evs ≠ [] ↔ g'.refs - g'.ignored = 0))) ∧
    (∀ (g : WindowGroup) (d : Int) (g' : WindowGroup) (evs : List Event),
        g.ignore d = Except.ok (g', evs) →
          ((g'.removed = true ↔ g'.refs - g'.ignored = 0) ∧
           (evs ≠ [] ↔ g'.refs - g'.ignored = 0))) ∧
    ({ newWindowGroup 1 with refs := 3, ignored := 2 } : WindowGroup).Add (-2) =
      Except.ok ({ newWindowGroup 1 with refs := 1, ignored := 2 }, []) ∧
    ({ newWindowGroup 1 with refs := 1, ignored := 2 } : WindowGroup).refs -
      ({ newWindowGroup 1 with refs := 1, ignored := 2 } : WindowGroup).ignored
        = -1 ∧
    ({ newWindowGroup 1 with refs := 1, ignored := 2 } : WindowGroup).removed
        = false := by
  refine ⟨?_, ?_, ?_, rfl, rfl⟩
  · intro g d g' evs h
    obtain ⟨-, -, hrefs, hig, -, hcase⟩ := Add_ok_spec g d g' evs h
    cases hcase with
    | inl hc =>
        obtain ⟨hz, hrm, -, hevs⟩ := hc
        constructor
        · constructor <;> intro <;> first | omega | exact hrm
        · constructor <;> intro
          · omega
          · simp [hevs]
    | inr hc =>
        obtain ⟨hz, hrm, -, hevs⟩ := hc
        constructor
        · rw [hrm]; constructor <;> intro hx
          · exact absurd hx (by simp)
          · omega
        · rw [hevs]; constructor <;> intro hx
          · exact absurd rfl hx
          · omega
  · intro g d g' evs h
    obtain ⟨-, -, hig, hrefs, -, hcase⟩ := ignore_ok_spec g d g' evs h
    cases hcase with
    | inl hc =>
        obtain ⟨hz, hrm, -, hevs⟩ := hc
        constructor
        · constructor <;> intro <;> first | omega | exact hrm
        · constructor <;> intro
          · omega
          · simp [hevs]
    | inr hc =>
        obtain ⟨hz, hrm, -, hevs⟩ := hc
        constructor
        · rw [hrm]; constructor <;> intro hx
          · exact absurd hx (by simp)
          · omega
        · rw [hevs]; constructor <;> intro hx
          · exact absurd rfl hx
          · omega
  · rfl

/-- C9 witness: the general disposal-iff-zero-liveness equivalence applied
to a concrete successful call (a fresh group, Add 1). -/
theorem c9_witness :
    ({ newWindowGroup 5 with refs := 1 } : WindowGroup).removed = true ↔
      ({ newWindowGroup 5 with refs := 1 } : WindowGroup).refs -
        ({ newWindowGroup 5 with refs := 1 } : WindowGroup).ignored = 0 :=
  (c9_dispose_iff_zero_liveness.1 (newWindowGroup 5) 1
    { newWindowGroup 5 with refs := 1 } [] rfl).1

/-- C7: once CreateToolTip has succeeded on a live group, a second call
returns the identical handle with no error, constructs nothing and leaves
the group (hence refs - ignored) unchanged; the compensating ignore(1) is
executed only by the first, constructing call. -/
theorem c7_createToolTip_idempotent (g : WindowGroup) (h : Nat) (o2 : Option Nat)
    (htt : g.toolTip = none) (hrem : g.removed = false)
    (hig : 0 ≤ g.ignored) (hlive : g.refs - g.ignored ≠ 0) :
    ∃ g1, g.CreateToolTip (some h) = Except.ok (g1, some h, true) ∧
      g1.toolTip = some h ∧ g1.refs = g.refs + 1 ∧ g1.ignored = g.ignored + 1 ∧
      g1.refs - g1.ignored = g.refs - g.ignored ∧
      g1.CreateToolTip o2 = Except.ok (g1, some h, false) := by
  refine ⟨{ g with
    refs := g.refs + 1
    toolTip := some h
    ignored := g.ignored + 1 }, ?_, rfl, rfl, rfl, by dsimp; omega, rfl⟩
  unfold WindowGroup.CreateToolTip NewToolTip
  rw [htt]
  have hstep : WindowGroup.ignore
      { g with refs := g.refs + 1, toolTip := some h } 1 =
      Except.ok ({ g with
        refs := g.refs + 1
        toolTip := some h
        ignored := g.ignored + 1 }, []) := by
    have := ignore_ok_noDispose
      { g with refs := g.refs + 1, toolTip := some h } 1
      (by dsimp; exact hrem) (by dsimp; omega) (by dsimp; omega)
    simpa using this
  simp [hstep]

/-- C7 witness: the idempotence theorem applied at a concrete live group. -/
theorem c7_witness :
    ∃ g1, WindowGroup.CreateToolTip { newWindowGroup 4 with refs := 1 }
        (some 9) = Except.ok (g1, some 9, true) ∧
      g1.toolTip = some 9 ∧
      g1.refs = ({ newWindowGroup 4 with refs := 1 } : WindowGroup).refs + 1 ∧
      g1.ignored =
        ({ newWindowGroup 4 with refs := 1 } : WindowGroup).ignored + 1 ∧
      g1.refs - g1.ignored =
        ({ newWindowGroup 4 with refs := 1 } : WindowGroup).refs -
          ({ newWindowGroup 4 with refs := 1 } : WindowGroup).ignored ∧
      g1.CreateToolTip none = Except.ok (g1, some 9, false) :=
  c7_createToolTip_idempotent { newWindowGroup 4 with refs := 1 } 9 none
    rfl rfl (by decide) (by decide)

lemma lookup_setGroup (tid : Nat) (g : WindowGroup) :
    ∀ l : List (Nat × WindowGroup),
      (l.map (fun p => if p.1 = tid then (tid, g) else p)).lookup tid =
        (l.lookup tid).map (fun _ => g) := by
  intro l
  induction l with
  | nil => rfl
  | cons p t ih =>
      obtain ⟨k, v⟩ := p
      simp only [List.map_cons]
      by_cases hp : k = tid
      · have hbk : (tid == k) = true := by simpa using hp.symm
        rw [if_pos hp]
        simp [List.lookup, hbk]
      · have hbk : (tid == k) = false := by simpa using Ne.symm hp
        rw [if_neg hp]
        simp [List.lookup, hbk, ih]

lemma lookup_append_left_none (tid : Nat) (l1 l2 : List (Nat × WindowGroup))
    (h : l1.lookup tid = none) : (l1 ++ l2).lookup tid = l2.lookup tid := by
  induction l1 with
  | nil => rfl
  | cons p t ih =>
      obtain ⟨k, v⟩ := p
      by_cases hp : tid = k
      · have hbk : (tid == k) = true := by simpa using hp
        simp [List.lookup, hbk] at h
      · have hbk : (tid == k) = false := by simpa using hp
        simp only [List.cons_append, List.lookup, hbk] at h ⊢
        exact ih h

/-- C5: CreateGroup returns the registered group with its reference count
incremented by exactly one when one exists (and the registry entry reflects
the increment), and otherwise creates, pre-increments to one, registers and
returns a new group. -/
theorem c5_createGroup (m : windowGroupManager) (tid : Nat) :
    (∀ g : WindowGroup, m.Group tid = some g → g.removed = false →
      0 ≤ g.refs → 0 < g.refs - g.ignored →
      m.CreateGroup tid =
        Except.ok (m.setGroup tid { g with refs := g.refs + 1 },
          { g with refs := g.refs + 1 }) ∧
      (m.setGroup tid { g with refs := g.refs + 1 }).Group tid =
        some { g with refs := g.refs + 1 } ∧
      ({ g with refs := g.refs + 1 } : WindowGroup).refs = g.refs + 1) ∧
    (m.Group tid = none →
      m.CreateGroup tid =
        Except.ok
          ({ groups := m.groups ++ [(tid, { newWindowGroup tid with refs := 1 })] },
            { newWindowGroup tid with refs := 1 }) ∧
      windowGroupManager.Group
          { groups := m.groups ++ [(tid, { newWindowGroup tid with refs := 1 })] }
          tid =
        some { newWindowGroup tid with refs := 1 } ∧
      ({ newWindowGroup tid with refs := 1 } : WindowGroup).refs = 1) := by
  constructor
  · intro g hg hrem hr hl
    have hAdd := Add_ok_noDispose g 1 hrem (by omega) (by omega)
    refine ⟨?_, ?_, rfl⟩
    · simp [windowGroupManager.CreateGroup, hg, hAdd]
    · have hg' : m.groups.lookup tid = some g := hg
      simp [windowGroupManager.Group, windowGroupManager.setGroup,
        lookup_setGroup, hg']
  · intro hnone
    have hAdd : (newWindowGroup tid).Add 1 =
        Except.ok ({ newWindowGroup tid with refs := 1 }, []) := rfl
    refine ⟨?_, ?_, rfl⟩
    · simp [windowGroupManager.CreateGroup, hnone, hAdd]
    · have hnone' : m.groups.lookup tid = none := hnone
      simp [windowGroupManager.Group,
        lookup_append_left_none tid m.groups _ hnone', List.lookup]

/-- C5 witness: creating a group in an empty registry, then again for the
same thread id, increments the count from one to two on the same entry. -/
theorem c5_witness :
    windowGroupManager.CreateGroup { groups := [] } 5 =
      Except.ok ({ groups := [(5, { newWindowGroup 5 with refs := 1 })] },
        { newWindowGroup 5 with refs := 1 }) ∧
    windowGroupManager.CreateGroup
        { groups := [(5, { newWindowGroup 5 with refs := 1 })] } 5 =
      Except.ok ({ groups := [(5, { newWindowGroup 5 with refs := 2 })] },
        { newWindowGroup 5 with refs := 2 }) := by
  constructor
  · exact ((c5_createGroup { groups := [] } 5).2 rfl).1
  · have := ((c5_createGroup
      { groups := [(5, { newWindowGroup 5 with refs := 1 })] } 5).1
      { newWindowGroup 5 with refs := 1 } rfl rfl (by decide) (by decide)).1
    simpa [windowGroupManager.setGroup] using this

lemma runAdds_cons_ok (g : WindowGroup) (d : Int) (ds : List Int)
    (g'' : WindowGroup) (e : List Event)
    (h : runAdds g (d :: ds) = Except.ok (g'', e)) :
    ∃ g' e1 e2, g.Add d = Except.ok (g', e1) ∧
      runAdds g' ds = Except.ok (g'', e2) ∧ e = e1 ++ e2 := by
  unfold runAdds at h
  cases hA : g.Add d with
  | error p => rw [hA] at h; simp at h
  | ok pr =>
      obtain ⟨g', e1⟩ := pr
      rw [hA] at h
      dsimp only at h
      cases hR : runAdds g' ds with
      | error p => rw [hR] at h; simp at h
      | ok pr2 =>
          obtain ⟨g2, e2⟩ := pr2
          rw [hR] at h
          simp at h
          obtain ⟨h1, h2⟩ := h
          refine ⟨g', e1, e2, rfl, ?_, ?_⟩
          · rw [hR]
            first
            | rw [h1]
            | rw [← h1]
          · first
            | exact h2.symm
            | exact h2

lemma runAdds_removed (g : WindowGroup) (ds : List Int) (g' : WindowGroup)
    (evs : List Event) (hrem : g.removed = true)
    (h : runAdds g ds = Except.ok (g', evs)) :
    ds = [] ∧ g' = g ∧ evs = [] := by
  cases ds with
  | nil =>
      simp [runAdds] at h
      obtain ⟨h1, h2⟩ := h
      refine ⟨rfl, ?_, ?_⟩
      · first
        | exact h1.symm
        | exact h1
      · first
        | exact h2.symm
        | exact h2
  | cons d t =>
      obtain ⟨g1, e1, e2, hA, -, -⟩ := runAdds_cons_ok g d t g' evs h
      rw [Add_removed_error g d hrem] at hA
      simp at hA

lemma runAdds_append_ok (l1 l2 : List Int) :
    ∀ (g g'' : WindowGroup) (e : List Event),
      runAdds g (l1 ++ l2) = Except.ok (g'', e) →
      ∃ g1 e1 e2, runAdds g l1 = Except.ok (g1, e1) ∧
        runAdds g1 l2 = Except.ok (g'', e2) ∧ e = e1 ++ e2 := by
  induction l1 with
  | nil =>
      intro g g'' e h
      exact ⟨g, [], e, rfl, h, rfl⟩
  | cons d t ih =>
      intro g g'' e h
      rw [List.cons_append] at h
      obtain ⟨g1, e1, e2, hA, hR, he⟩ := runAdds_cons_ok g d (t ++ l2) g'' e h
      obtain ⟨g2, e3, e4, hT, hL, he2⟩ := ih g1 g'' e2 hR
      refine ⟨g2, e1 ++ e3, e4, ?_, hL, by rw [he, he2, List.append_assoc]⟩
      unfold runAdds
      rw [hA]
      dsimp only
      rw [hT]

lemma runAdds_inv (ds : List Int) :
    ∀ (g g' : WindowGroup) (evs : List Event),
      g.removed = false → g.ignored = 0 → g.toolTip = none → 0 ≤ g.refs →
      runAdds g ds = Except.ok (g', evs) →
      g'.ignored = 0 ∧ g'.toolTip = none ∧ 0 ≤ g'.refs ∧
      g'.threadID = g.threadID ∧
      ((g'.removed = true ∧ g'.refs = 0 ∧
          evs = [Event.markedRemoved, Event.completion g.threadID]) ∨
       (g'.removed = false ∧ evs = [] ∧ (ds ≠ [] → g'.refs ≠ 0))) := by
  induction ds with
  | nil =>
      intro g g' evs hrem hig htt hr h
      simp [runAdds] at h
      obtain ⟨h1, h2⟩ := h
      subst h1
      refine ⟨hig, htt, hr, rfl, Or.inr ⟨hrem, ?_, by simp⟩⟩
      first
      | exact h2.symm
      | exact h2
  | cons d t ih =>
      intro g g' evs hrem hig htt hr h
      obtain ⟨g1, e1, e2, hA, hR, he⟩ := runAdds_cons_ok g d t g' evs h
      obtain ⟨-, hge, hrefs1, hig1, htid1, hcase⟩ := Add_ok_spec g d g1 e1 hA
      cases hcase with
      | inl hdisp =>
          obtain ⟨hz, hrem1, htt1, hevs1⟩ := hdisp
          obtain ⟨ht0, hg, hev⟩ := runAdds_removed g1 t g' e2 hrem1 hR
          subst hg
          rw [htt] at hevs1
          simp only [List.nil_append] at hevs1
          refine ⟨hig1.trans hig, htt1, by omega, htid1, Or.inl ⟨hrem1, by omega, ?_⟩⟩
          rw [he, hev, hevs1, List.append_nil]
      | inr hnod =>
          obtain ⟨hnz, hrem1, htt1, hevs1⟩ := hnod
          obtain ⟨i1, i2, i3, i4, i5⟩ := ih g1 g' e2 hrem1
            (by rw [hig1, hig]) (by rw [htt1, htt]) (by omega) hR
          refine ⟨i1, i2, i3, by rw [i4, htid1], ?_⟩
          cases i5 with
          | inl l =>
              refine Or.inl ⟨l.1, l.2.1, ?_⟩
              rw [he, hevs1, List.nil_append, l.2.2, htid1]
          | inr r =>
              refine Or.inr ⟨r.1, by rw [he, hevs1, r.2.1, List.nil_append], ?_⟩
              intro _
              cases ht : t with
              | nil =>
                  subst ht
                  simp [runAdds] at hR
                  obtain ⟨hq1, hq2⟩ := hR
                  have hgr : g'.refs = g.refs + d := by
                    first
                    | rw [← hq1, hrefs1]
                    | rw [hq1, hrefs1]
                  omega
              | cons s u =>
                  exact r.2.2 (by rw [ht]; simp)

/-- C1: along every non-panicking sequence of Add/Done calls on a fresh
group, liveness never goes negative; disposal fires at most once, exactly
when the group became removed, exactly at the first (and then last) call
that brings liveness to zero, all earlier states having positive liveness;
and once removed, no Add or ignore call can mutate the counters (both
panic). -/
theorem c1_refcount (tid : Nat) (ds : List Int) (g : WindowGroup)
    (evs : List Event)
    (h : runAdds (newWindowGroup tid) ds = Except.ok (g, evs)) :
    0 ≤ g.refs - g.ignored ∧
    evs.count Event.markedRemoved ≤ 1 ∧
    (evs.count Event.markedRemoved = 1 ↔ g.removed = true) ∧
    (g.removed = true → g.refs - g.ignored = 0) ∧
    (∀ pre suf, ds = pre ++ suf → suf ≠ [] →
      ∀ gp ep, runAdds (newWindowGroup tid) pre = Except.ok (gp, ep) →
        gp.removed = false ∧ ep.count Event.markedRemoved = 0 ∧
        (pre ≠ [] → 0 < gp.refs - gp.ignored)) ∧
    (g.removed = true → ∀ d : Int,
      g.Add d = Except.error Panic.addOnRemoved ∧
      g.ignore d = Except.error Panic.ignoreOnRemoved) := by
  obtain ⟨hig, htt, hr, htid, hcase⟩ :=
    runAdds_inv ds (newWindowGroup tid) g evs rfl rfl rfl (by simp [newWindowGroup]) h
  have hcount : evs.count Event.markedRemoved ≤ 1 ∧
      (evs.count Event.markedRemoved = 1 ↔ g.removed = true) ∧
      (g.removed = true → g.refs - g.ignored = 0) := by
    cases hcase with
    | inl l =>
        obtain ⟨l1, l2, l3⟩ := l
        rw [l3, l1]
        simp [List.count_cons]
        omega
    | inr r =>
        obtain ⟨r1, r2, -⟩ := r
        rw [r2, r1]
        simp
  refine ⟨by omega, hcount.1, hcount.2.1, hcount.2.2, ?_, ?_⟩
  · intro pre suf hds hsuf gp ep hpre
    subst hds
    obtain ⟨g1, e1, e2, hp1, hp2, -⟩ :=
      runAdds_append_ok pre suf (newWindowGroup tid) g evs h
    rw [hpre] at hp1
    simp at hp1
    obtain ⟨hg1, he1⟩ := hp1
    subst hg1
    subst he1
    obtain ⟨j1, j2, j3, -, jcase⟩ :=
      runAdds_inv pre (newWindowGroup tid) gp ep rfl rfl rfl
        (by simp [newWindowGroup]) hpre
    have hrem : gp.removed = false := by
      cases hs : suf with
      | nil => exact absurd hs hsuf
      | cons s u =>
          subst hs
          obtain ⟨gq, f1, f2, hAq, -, -⟩ := runAdds_cons_ok gp s u g e2 hp2
          exact (Add_ok_spec gp s gq f1 hAq).1
    cases jcase with
    | inl l => rw [l.1] at hrem; cases hrem
    | inr r =>
        refine ⟨hrem, by rw [r.2.1]; simp, ?_⟩
        intro hne
        have := r.2.2 hne
        omega
  · intro hrm d
    exact ⟨Add_removed_error g d hrm, ignore_removed_error g d hrm⟩

/-- C1 witness: the invariant theorem applied to the concrete run
Add 1 then Done on a fresh group, which disposes at the final call. -/
theorem c1_witness :
    (0 : Int) ≤
      ({ newWindowGroup 7 with refs := 0, removed := true } : WindowGroup).refs -
      ({ newWindowGroup 7 with refs := 0, removed := true } : WindowGroup).ignored ∧
    [Event.markedRemoved, Event.completion 7].count Event.markedRemoved ≤ 1 :=
  have h := c1_refcount 7 [1, -1]
    { newWindowGroup 7 with refs := 0, removed := true }
    [Event.markedRemoved, Event.completion 7] (by decide)
  ⟨h.1, h.2.1⟩

/-- C2 witness: the FIFO drain theorem applied to two concrete callbacks on
a fresh group. -/
theorem c2_witness :
    ((((newWindowGroup 0).Synchronize 1).Synchronize 2).RunSynchronized
      (fun _ => [])).2 = [Action.run 1, Action.run 2] :=
  (c2_synchronize_fifo (newWindowGroup 0) (fun _ => []) 1 2 rfl rfl).1

/-- C3 witness: the reentrant-callback theorem applied to a concrete
callback that enqueues another one. -/
theorem c3_witness :
    (((newWindowGroup 0).Synchronize 1).RunSynchronized
      (fun f => if f = 1 then [2] else [])).2 = [Action.run 1] :=
  (c3_reentrant_next_drain (newWindowGroup 0)
    (fun f => if f = 1 then [2] else []) 1 2 rfl rfl rfl rfl (by decide)).1

end Walk
